import Mathlib

/-!
Verification development for the `compactor` DNSTAP ingestion and IP
pseudo-anonymisation core.

The repository ships two headers, `src/dnstap.hpp` and
`src/pseudoanonymise.hpp`, whose declarations and documentation comments
describe the DNSTAP frame-stream decoder (`DnsTap`) and the AES-128-based
pseudo-anonymisation façade (`PseudoAnonymise`).  The corresponding
implementation files are not part of the available sources, so the
operational behaviour is modelled here from the design document and from
the headers' own documentation, as a shallow embedding: byte streams are
`List Nat`, the AES-128 block primitive (supplied by OpenSSL in the code)
and the PBKDF2 key-derivation function are abstract function parameters,
and fallible operations return `Option`/`Except`.
-/

/-! ## PseudoAnonymise: data model -/

/-- Modelled from the spec: the implementation of class `PseudoAnonymise`
(`pseudoanonymise.cpp`) is not under `src/`; only `pseudoanonymise.hpp` is.
The façade holds only the (immutable) 16-byte AES key, mirroring the single
private member `AES_KEY aes_key` of the header. -/
structure PseudoAnonymise where
  aes_key : List Nat
deriving DecidableEq

/-- A block cipher: key and 16-byte block to 16-byte block.  Stands for
OpenSSL `AES_encrypt` under the schedule of `aes_key`, which is external to
this repository and therefore kept abstract. -/
def BlockCipher : Type := List Nat → List Nat → List Nat

/-- Modelled from the spec: `PseudoAnonymise::address`
(`pseudoanonymise.cpp` is not under `src/`).  Per §4.3 of the design and
the class comment of `pseudoanonymise.hpp`: a 16-byte (IPv6) address is
encrypted directly as a single AES-128 block; for a 4-byte (IPv4) address
a buffer of 4 concatenated copies of the address is encrypted and the most
significant (first) 4 bytes of the result are used. -/
def PseudoAnonymise.address (bc : BlockCipher) (pa : PseudoAnonymise)
    (a : List Nat) : List Nat :=
  if a.length = 4 then (bc pa.aes_key (a ++ a ++ a ++ a)).take 4
  else bc pa.aes_key a

/-- Default key-derivation salt, from `pseudoanonymise.hpp` line 56:
`PseudoAnonymise(const char* str, const char* salt = "cdnscdnscdnscdns")`. -/
def DEFAULT_SALT : String := "cdnscdnscdnscdns"

/-- Salt used by PowerDNS ipcipher, named in the class comment of
`pseudoanonymise.hpp` as the scheme this tool deliberately differs from. -/
def IPCIPHER_SALT : String := "ipcipheripcipher"

/-- Modelled from the spec: `PseudoAnonymise::generate_key`
(`pseudoanonymise.cpp` is not under `src/`).  §4.2: an iterated HMAC-based
password-based KDF (PBKDF2) over passphrase and salt "producing exactly
16 bytes".  The PBKDF2 core is external (OpenSSL) and kept abstract as
`kdf`; the fixed output size of 16 bytes is part of the contract and is
made explicit by truncating/zero-padding the abstract stream. -/
def generate_key (kdf : String → String → List Nat) (str salt : String) :
    List Nat :=
  ((kdf str salt) ++ List.replicate 16 0).take 16

/-- Modelled from the spec: the two-argument constructor
`PseudoAnonymise(const char* str, const char* salt)`, which derives the
AES key from passphrase and salt via `generate_key`. -/
def mkPseudoAnonymise (kdf : String → String → List Nat) (str salt : String) :
    PseudoAnonymise :=
  ⟨generate_key kdf str salt⟩

/-- Modelled from the spec: the same constructor invoked without an explicit
salt, which the header defaults to `"cdnscdnscdnscdns"`. -/
def mkPseudoAnonymiseDefault (kdf : String → String → List Nat)
    (str : String) : PseudoAnonymise :=
  mkPseudoAnonymise kdf str DEFAULT_SALT

/-! ## OPT RDATA option walk -/

/-- EDNS0 option code for the client-subnet option (RFC 7871), the option
`PseudoAnonymise::opt_rdata` rewrites per its header comment. -/
def CLIENT_SUBNET : Nat := 8

/-- Address byte width of a client-subnet family: 1 = IPv4 (4 bytes),
2 = IPv6 (16 bytes); any other family is unrecognised. -/
def familyWidth (f : Nat) : Option Nat :=
  if f = 1 then some 4 else if f = 2 then some 16 else none

/-- Modelled from the spec, §4.4: rewrite the value field of one
client-subnet option.  The value is family (2 bytes), source prefix length,
scope prefix length, then `ceil(source/8)` address bytes.  The stored
address bytes are zero-extended to the family width, passed through the
address cipher `anon`, and the result truncated back to the stored length.
Returns `none` when the value is malformed (too short for the fixed header,
or the address field is shorter than the source prefix length implies). -/
def rewrite_ecs (anon : List Nat → List Nat) (val : List Nat) :
    Option (List Nat) :=
  match val with
  | f0 :: f1 :: srcpl :: scopepl :: addr =>
    match familyWidth (f0 * 256 + f1) with
    | none => some (f0 :: f1 :: srcpl :: scopepl :: addr)
    | some w =>
      if (srcpl + 7) / 8 ≤ addr.length ∧ (srcpl + 7) / 8 ≤ w then
        some (f0 :: f1 :: srcpl :: scopepl ::
          ((anon (addr.take ((srcpl + 7) / 8) ++
              List.replicate (w - (srcpl + 7) / 8) 0)).take ((srcpl + 7) / 8)
            ++ addr.drop ((srcpl + 7) / 8)))
      else none
  | _ => none

/-- Modelled from the spec, §4.4: walk an OPT option list as a sequence of
(code, length, value) entries, rewriting the value of each client-subnet
option and copying everything else through unchanged.  Returns `none` on a
malformed list (truncated header, declared length exceeding the remaining
bytes, or a malformed client-subnet value).  `fuel` bounds the recursion;
each step consumes at least 4 bytes, so `length + 1` fuel is always
sufficient. -/
def opt_walk (anon : List Nat → List Nat) :
    Nat → List Nat → Option (List Nat)
  | _, [] => some []
  | 0, _ :: _ => none
  | fuel + 1, c0 :: c1 :: l0 :: l1 :: rest =>
    if l0 * 256 + l1 ≤ rest.length then
      match (if c0 * 256 + c1 = CLIENT_SUBNET
             then rewrite_ecs anon (rest.take (l0 * 256 + l1))
             else some (rest.take (l0 * 256 + l1))) with
      | none => none
      | some val =>
        match opt_walk anon fuel (rest.drop (l0 * 256 + l1)) with
        | none => none
        | some tail => some (c0 :: c1 :: l0 :: l1 :: (val ++ tail))
    else none
  | _ + 1, _ => none

/-- Modelled from the spec: the option codes of an OPT option list, in
order, or `none` when the list of (code, length, value) entries is
truncated.  Used to state "contains no client-subnet option". -/
def opt_codes : Nat → List Nat → Option (List Nat)
  | _, [] => some []
  | 0, _ :: _ => none
  | fuel + 1, c0 :: c1 :: l0 :: l1 :: rest =>
    if l0 * 256 + l1 ≤ rest.length then
      match opt_codes fuel (rest.drop (l0 * 256 + l1)) with
      | none => none
      | some cs => some ((c0 * 256 + c1) :: cs)
    else none
  | _ + 1, _ => none

/-- Modelled from the spec: `PseudoAnonymise::opt_rdata`
(`pseudoanonymise.cpp` is not under `src/`).  Walks the option list and
rewrites client-subnet addresses; on any malformed structure the original
bytes are returned unmodified (§4.4 failure policy) and no error is ever
raised — the function is total. -/
def PseudoAnonymise.opt_rdata (bc : BlockCipher) (pa : PseudoAnonymise)
    (rdata : List Nat) : List Nat :=
  match opt_walk (PseudoAnonymise.address bc pa) (rdata.length + 1) rdata with
  | some out => out
  | none => rdata

/-! ## DnsTap: frame-stream decoder -/

/-- Decoder state, §3 of the design: initial `awaitStart`, `running` after
START, terminal `done` after STOP. -/
inductive DState where
  | awaitStart
  | running
  | done
deriving DecidableEq

/-- Outcome of `process_stream`.  `protocolError` models the
`dnstap_invalid` exception of `dnstap.hpp`; `decodeError` a failure of the
external payload decoder; `ioError` a propagated stream write failure;
`outOfFuel` marks exhaustion of the recursion bound (never reached from
`process_stream`, which supplies sufficient fuel). -/
inductive TapOutcome where
  | ok
  | protocolError
  | decodeError
  | ioError
  | outOfFuel
deriving DecidableEq

/-- Modelled from the spec: the `DnsTap` machine configuration
(`dnstap.cpp` is not under `src/`; `dnstap.hpp` declares the members
`bidirectional_`, `dns_sink_` and `state_`).  The byte stream is explicit:
`input` is the unread part, `writes` the control frames written back so
far, `sunk` the records handed to the sink so far.  `failSched` schedules
stream-write failures (`true` = the next write fails), modelling I/O
errors on the reply channel; an exhausted schedule means writes succeed. -/
structure DnsTap (α : Type) where
  input : List Nat
  failSched : List Bool
  writes : List (List Nat)
  sunk : List α
  bidirectional : Bool
  state : DState
deriving DecidableEq

/-- Control-type code ACCEPT = 1 (§6 wire contract). -/
def CONTROL_ACCEPT : Nat := 1

/-- Control-type code START = 2 (§6 wire contract). -/
def CONTROL_START : Nat := 2

/-- Control-type code STOP = 3 (§6 wire contract). -/
def CONTROL_STOP : Nat := 3

/-- Control-type code READY = 4 (§6 wire contract). -/
def CONTROL_READY : Nat := 4

/-- Control-type code FINISH = 5 (§6 wire contract). -/
def CONTROL_FINISH : Nat := 5

/-- Big-endian 4-byte encoding of a 32-bit value. -/
def toBE4 (n : Nat) : List Nat :=
  [n / 16777216 % 256, n / 65536 % 256, n / 256 % 256, n % 256]

/-- Big-endian 4-byte decoding, as read by `DnsTap::get_value`. -/
def fromBE4 (b0 b1 b2 b3 : Nat) : Nat :=
  ((b0 * 256 + b1) * 256 + b2) * 256 + b3

/-- Encoding of a control frame with type `t` and no options: zero outer
length, control length 4, control type (§6 wire format). -/
def control_frame (t : Nat) : List Nat :=
  toBE4 0 ++ toBE4 4 ++ toBE4 t

/-- Encoding of a data frame: non-zero length prefix then the payload. -/
def data_frame (d : List Nat) : List Nat :=
  toBE4 d.length ++ d

/-- Modelled from the spec: `DnsTap::make_accept` (`dnstap.cpp` is not
under `src/`).  The content-type negotiation option carried by the real
ACCEPT frame is an opaque external blob (§9) and is omitted. -/
def make_accept : List Nat := control_frame CONTROL_ACCEPT

/-- Modelled from the spec: `DnsTap::make_finish` (`dnstap.cpp` is not
under `src/`). -/
def make_finish : List Nat := control_frame CONTROL_FINISH

/-- Modelled from the spec: `DnsTap::send_control` (`dnstap.cpp` is not
under `src/`).  Writes a control frame to the stream; when the scheduled
write fails, the error is swallowed if `ignore_err` is set (the best-effort
FINISH path of §4.1) and propagated (`none`) otherwise.  A failed write
records nothing. -/
def send_control (st : DnsTap α) (msg : List Nat) (ignore_err : Bool) :
    Option (DnsTap α) :=
  match st.failSched with
  | true :: fs => if ignore_err then some { st with failSched := fs } else none
  | false :: fs =>
      some { st with failSched := fs, writes := st.writes ++ [msg] }
  | [] => some { st with writes := st.writes ++ [msg] }

/-- Modelled from the spec: `DnsTap::process_control_frame` (`dnstap.cpp`
is not under `src/`).  §4.1: READY is accepted awaiting start, makes the
session bidirectional and is answered with ACCEPT (write errors
propagate); START moves to running; STOP (running only) moves to the
terminal state and, when bidirectional, best-effort writes FINISH; FINISH
returns `false` ("\returns `false` if FINISH read", `dnstap.hpp` line 88),
stopping the read loop; any other code, or a control frame in a state that
forbids it, is a protocol error. -/
def process_control_frame (st : DnsTap α) (t : Nat) :
    Except TapOutcome (Bool × DnsTap α) :=
  if t = CONTROL_READY then
    if st.state = DState.awaitStart then
      match send_control { st with bidirectional := true } make_accept false with
      | some st' => Except.ok (true, st')
      | none => Except.error TapOutcome.ioError
    else Except.error TapOutcome.protocolError
  else if t = CONTROL_START then
    if st.state = DState.awaitStart then
      Except.ok (true, { st with state := DState.running })
    else Except.error TapOutcome.protocolError
  else if t = CONTROL_STOP then
    if st.state = DState.running then
      if st.bidirectional then
        match send_control { st with state := DState.done } make_finish true with
        | some st' => Except.ok (true, st')
        | none => Except.ok (true, { st with state := DState.done })
      else Except.ok (true, { st with state := DState.done })
    else Except.error TapOutcome.protocolError
  else if t = CONTROL_FINISH then
    Except.ok (false, st)
  else Except.error TapOutcome.protocolError

/-- Modelled from the spec: `DnsTap::get_value` (`dnstap.cpp` is not under
`src/`): read a 4-byte big-endian value; `none` when fewer than 4 bytes
remain (end-of-stream mid-field). -/
def get_value : List Nat → Option (Nat × List Nat)
  | b0 :: b1 :: b2 :: b3 :: rest => some (fromBE4 b0 b1 b2 b3, rest)
  | _ => none

/-- Modelled from the spec: `DnsTap::get_buffer` (`dnstap.cpp` is not
under `src/`): read exactly `n` bytes; `none` when the stream ends first
(truncated frame). -/
def get_buffer : List Nat → Nat → Option (List Nat × List Nat)
  | l, 0 => some ([], l)
  | [], _ + 1 => none
  | b :: l, n + 1 =>
    match get_buffer l n with
    | some (x, r) => some (b :: x, r)
    | none => none

/-- Modelled from the spec: `DnsTap::read_control_frame` (`dnstap.cpp` is
not under `src/`): read the control-body length, the body, and return the
control type (first 4 body bytes, big-endian) plus any negotiation options
(§4.1 step 2).  `none` on truncation or a body shorter than 4 bytes. -/
def read_control_frame (l : List Nat) : Option (Nat × List Nat × List Nat) :=
  match get_value l with
  | none => none
  | some (clen, l1) =>
    match get_buffer l1 clen with
    | none => none
    | some (body, rest) =>
      match body with
      | t0 :: t1 :: t2 :: t3 :: opts => some (fromBE4 t0 t1 t2 t3, opts, rest)
      | _ => none

/-- Modelled from the spec: the read loop of `DnsTap::process_stream`
(`dnstap.cpp` is not under `src/`), §4.1: read a length; zero means a
control frame (dispatched to `process_control_frame`, whose `false` return
stops the loop); non-zero means a data frame, valid only when running,
whose payload is decoded by the external decoder `dec` and handed to the
sink.  End-of-stream at a frame boundary ends the loop normally; the
terminal state `done` (after STOP) stops reading.  `fuel` bounds the
recursion; every iteration consumes at least 4 input bytes. -/
def DnsTap.run (dec : List Nat → Option α) :
    Nat → DnsTap α → TapOutcome × DnsTap α
  | 0, st => (TapOutcome.outOfFuel, st)
  | fuel + 1, st =>
    if st.state = DState.done then (TapOutcome.ok, st)
    else
      match st.input with
      | [] => (TapOutcome.ok, st)
      | _ :: _ =>
        match get_value st.input with
        | none => (TapOutcome.protocolError, st)
        | some (len, rest) =>
          if len = 0 then
            match read_control_frame rest with
            | none => (TapOutcome.protocolError, st)
            | some (t, _, rest') =>
              match process_control_frame { st with input := rest' } t with
              | Except.error o => (o, st)
              | Except.ok (cont, st') =>
                if cont then DnsTap.run dec fuel st'
                else (TapOutcome.ok, st')
          else
            if st.state = DState.running then
              match get_buffer rest len with
              | none => (TapOutcome.protocolError, st)
              | some (payload, rest') =>
                match dec payload with
                | none => (TapOutcome.decodeError, st)
                | some r =>
                  DnsTap.run dec fuel
                    { st with input := rest', sunk := st.sunk ++ [r] }
            else (TapOutcome.protocolError, st)

/-- Modelled from the spec: `DnsTap::process_stream` (`dnstap.cpp` is not
under `src/`): run the read loop from the initial configuration
(await-start, unidirectional until READY, nothing written or sunk) over
the whole input.  `inp.length + 1` fuel is sufficient since every
iteration consumes at least 4 bytes. -/
def DnsTap.process_stream (dec : List Nat → Option α) (inp : List Nat)
    (failSched : List Bool) : TapOutcome × DnsTap α :=
  DnsTap.run dec (inp.length + 1)
    ⟨inp, failSched, [], [], false, DState.awaitStart⟩

/-- The identity payload decoder used for concrete runs: the structured
record is the raw payload itself (the decoder is an external collaborator,
§6). -/
def decId : List Nat → Option (List Nat) := fun b => some b

/-- The identity block cipher, used to instantiate theorems at concrete
inputs. -/
def bcId : BlockCipher := fun _ x => x

/-- A trivial KDF core, used to instantiate theorems at concrete inputs. -/
def kdfZero : String → String → List Nat := fun _ _ => []

/-- Specification relation for C5, following §4.4's words: two OPT option
lists agree everywhere outside the address fields of client-subnet
options.  Headers (codes and lengths), whole non-client-subnet options,
and the family/prefix sub-header and any address bytes beyond
`ceil(source-prefix/8)` of client-subnet options are identical; only the
first `ceil(source-prefix/8)` address bytes may differ, and lengths always
agree. -/
inductive EcsOutsideEq : List Nat → List Nat → Prop where
  | nil : EcsOutsideEq [] []
  | other (c0 c1 l0 l1 : Nat) (val rest rest' : List Nat)
      (hc : c0 * 256 + c1 ≠ CLIENT_SUBNET)
      (hl : val.length = l0 * 256 + l1)
      (htail : EcsOutsideEq rest rest') :
      EcsOutsideEq (c0 :: c1 :: l0 :: l1 :: (val ++ rest))
        (c0 :: c1 :: l0 :: l1 :: (val ++ rest'))
  | ecs (c0 c1 l0 l1 f0 f1 srcpl scopepl : Nat) (addr addr' rest rest' : List Nat)
      (hc : c0 * 256 + c1 = CLIENT_SUBNET)
      (hl : addr.length + 4 = l0 * 256 + l1)
      (hlen : addr'.length = addr.length)
      (hout : addr.drop ((srcpl + 7) / 8) = addr'.drop ((srcpl + 7) / 8))
      (htail : EcsOutsideEq rest rest') :
      EcsOutsideEq
        (c0 :: c1 :: l0 :: l1 :: f0 :: f1 :: srcpl :: scopepl :: (addr ++ rest))
        (c0 :: c1 :: l0 :: l1 :: f0 :: f1 :: srcpl :: scopepl :: (addr' ++ rest'))

/-! ## Decoder step lemmas -/

/-- Round trip of the 4-byte big-endian encoding. -/
theorem fromBE4_toBE4 (n : Nat) (h : n < 4294967296) :
    fromBE4 (n / 16777216 % 256) (n / 65536 % 256) (n / 256 % 256) (n % 256) = n := by
  unfold fromBE4
  omega

/-- Reading exactly the length of the first chunk splits an appended
stream. -/
theorem get_buffer_append (D r : List Nat) :
    get_buffer (D ++ r) D.length = some (D, r) := by
  induction D with
  | nil => simp [get_buffer]
  | cons b D ih => simp [get_buffer, ih]

/-- In the terminal state the loop stops reading and returns normally. -/
theorem run_done (dec : List Nat → Option α) (fuel : Nat) (inp : List Nat)
    (fs : List Bool) (w : List (List Nat)) (sk : List α) (bi : Bool) :
    DnsTap.run dec (fuel + 1) ⟨inp, fs, w, sk, bi, DState.done⟩ =
      (TapOutcome.ok, ⟨inp, fs, w, sk, bi, DState.done⟩) := by
  simp [DnsTap.run]

/-- End-of-stream at a frame boundary returns normally. -/
theorem run_empty (dec : List Nat → Option α) (fuel : Nat)
    (fs : List Bool) (w : List (List Nat)) (sk : List α) (bi : Bool) (s : DState) :
    DnsTap.run dec (fuel + 1) ⟨[], fs, w, sk, bi, s⟩ =
      (TapOutcome.ok, ⟨[], fs, w, sk, bi, s⟩) := by
  cases s <;> simp [DnsTap.run]

/-- One loop iteration over an encoded option-less control frame of type
`t` dispatches to `process_control_frame`. -/
theorem run_control (dec : List Nat → Option α) (fuel t : Nat) (r : List Nat)
    (fs : List Bool) (w : List (List Nat)) (sk : List α) (bi : Bool) (s : DState)
    (hs : s ≠ DState.done) :
    DnsTap.run dec (fuel + 1) ⟨0::0::0::0::0::0::0::4::0::0::0::t::r, fs, w, sk, bi, s⟩ =
      (match process_control_frame ⟨r, fs, w, sk, bi, s⟩ t with
       | Except.error o => (o, ⟨0::0::0::0::0::0::0::4::0::0::0::t::r, fs, w, sk, bi, s⟩)
       | Except.ok (cont, st') =>
          if cont then DnsTap.run dec fuel st' else (TapOutcome.ok, st')) := by
  simp [DnsTap.run, hs, get_value, fromBE4, read_control_frame, get_buffer]

/-- One loop iteration over an encoded data frame in the running state
decodes the payload and hands it to the sink. -/
theorem run_data (dec : List Nat → Option α) (fuel L : Nat) (D r : List Nat)
    (fs : List Bool) (w : List (List Nat)) (sk : List α) (bi : Bool)
    (hL : D.length = L) (h0 : 0 < L) (hlt : L < 4294967296) :
    DnsTap.run dec (fuel + 1) ⟨toBE4 L ++ (D ++ r), fs, w, sk, bi, DState.running⟩ =
      (match dec D with
       | none => (TapOutcome.decodeError, ⟨toBE4 L ++ (D ++ r), fs, w, sk, bi, DState.running⟩)
       | some x => DnsTap.run dec fuel ⟨r, fs, w, sk ++ [x], bi, DState.running⟩) := by
  have hbe := fromBE4_toBE4 L hlt
  have hgb := get_buffer_append D r
  rw [hL] at hgb
  simp [DnsTap.run, toBE4, get_value, hbe, Nat.pos_iff_ne_zero.mp h0, hgb]

/-! ## Claim theorems -/

/-- C1: family correctness of the address transform.  For every block
cipher and key: a 16-byte (IPv6) address maps to exactly the single-block
encryption of its bytes, and a 4-byte (IPv4) address maps to exactly the
first (most significant) 4 bytes of the encryption of four concatenated
copies of itself. -/
theorem address_family_correctness (bc : BlockCipher) (pa : PseudoAnonymise)
    (a : List Nat) :
    (a.length = 16 → PseudoAnonymise.address bc pa a = bc pa.aes_key a) ∧
    (a.length = 4 → PseudoAnonymise.address bc pa a =
        (bc pa.aes_key (a ++ a ++ a ++ a)).take 4) := by
  constructor
  · intro h
    simp [PseudoAnonymise.address, h]
  · intro h
    simp [PseudoAnonymise.address, h]

/-- Witness for C1: the identity cipher on a concrete 16-byte address. -/
theorem address_family_correctness_witness :
    PseudoAnonymise.address bcId ⟨[]⟩ (List.replicate 16 0) =
      List.replicate 16 0 :=
  (address_family_correctness bcId ⟨[]⟩ (List.replicate 16 0)).1 (by decide)

/-- C2: framing round trip.  A unidirectional stream `START, data(D1),
data(D2), STOP` makes `process_stream` invoke the sink exactly twice, with
the records decoded from D1 then D2 in stream order, write no reply
frames, and return without error. -/
theorem framing_round_trip (α : Type) (dec : List Nat → Option α)
    (D1 D2 : List Nat) (r1 r2 : α)
    (h1 : 0 < D1.length) (h1' : D1.length < 4294967296)
    (h2 : 0 < D2.length) (h2' : D2.length < 4294967296)
    (hd1 : dec D1 = some r1) (hd2 : dec D2 = some r2) :
    DnsTap.process_stream dec
      (control_frame CONTROL_START ++ data_frame D1 ++ data_frame D2 ++
        control_frame CONTROL_STOP) [] =
    (TapOutcome.ok, ⟨[], [], [], [r1, r2], false, DState.done⟩) := by
  unfold DnsTap.process_stream
  have hlen : (control_frame CONTROL_START ++ data_frame D1 ++ data_frame D2 ++
      control_frame CONTROL_STOP).length + 1 = (D1.length + D2.length + 32) + 1 := by
    simp only [control_frame, data_frame, toBE4, List.length_append, List.length_cons,
      List.length_nil]
    omega
  rw [hlen]
  have hinp : control_frame CONTROL_START ++ data_frame D1 ++ data_frame D2 ++
      control_frame CONTROL_STOP =
      0::0::0::0::0::0::0::4::0::0::0::2::
        (toBE4 D1.length ++ (D1 ++ (toBE4 D2.length ++ (D2 ++
          (0::0::0::0::0::0::0::4::0::0::0::3::([]:List Nat)))))) := by
    simp [control_frame, data_frame, toBE4, CONTROL_START, CONTROL_STOP]
  rw [hinp]
  rw [run_control dec (D1.length + D2.length + 32) 2 _ [] [] ([] : List α) false
    DState.awaitStart (by decide)]
  simp only [process_control_frame, CONTROL_READY, CONTROL_START, CONTROL_STOP,
    CONTROL_FINISH]
  norm_num
  have e2 : D1.length + D2.length + 32 = (D1.length + D2.length + 31) + 1 := by omega
  rw [e2, run_data dec (D1.length + D2.length + 31) D1.length D1 _ [] [] [] false
    rfl h1 h1']
  simp only [hd1, List.nil_append]
  have e3 : D1.length + D2.length + 31 = (D1.length + D2.length + 30) + 1 := by omega
  rw [e3, run_data dec (D1.length + D2.length + 30) D2.length D2 _ [] [] [r1] false
    rfl h2 h2']
  simp only [hd2, List.singleton_append]
  have e4 : D1.length + D2.length + 30 = (D1.length + D2.length + 29) + 1 := by omega
  rw [e4, run_control dec (D1.length + D2.length + 29) 3 ([] : List Nat) [] []
    ([r1, r2]) false DState.running (by decide)]
  simp only [process_control_frame, CONTROL_READY, CONTROL_START, CONTROL_STOP,
    CONTROL_FINISH]
  norm_num
  have e5 : D1.length + D2.length + 29 = (D1.length + D2.length + 28) + 1 := by omega
  rw [e5, run_done]

/-- Witness for C2: concrete payloads `[1]` and `[2, 3]` under the identity
decoder. -/
theorem framing_round_trip_witness :
    DnsTap.process_stream decId
      (control_frame CONTROL_START ++ data_frame [1] ++ data_frame [2, 3] ++
        control_frame CONTROL_STOP) [] =
      (TapOutcome.ok, ⟨[], [], [], [[1], [2, 3]], false, DState.done⟩) :=
  framing_round_trip (List Nat) decId [1] [2, 3] [1] [2, 3] (by decide) (by decide)
    (by decide) (by decide) rfl rfl

/-- C3: STOP termination.  A STOP received while running makes the control
handler succeed, continue into the terminal state (so `process_stream`
returns normally); in a bidirectional session (established by READY) a
FINISH frame is written back, and an I/O failure of that best-effort write
is swallowed: the run still ends with `ok` and the FINISH simply is not
recorded, while the earlier ACCEPT write went through. -/
theorem stop_termination :
    (∀ st : DnsTap (List Nat), st.state = DState.running →
      (process_control_frame st CONTROL_STOP).toOption.map
          (fun p => (p.1, p.2.state)) = some (true, DState.done)) ∧
    DnsTap.process_stream decId
      (control_frame CONTROL_READY ++ control_frame CONTROL_START ++
        control_frame CONTROL_STOP) [false, false] =
      (TapOutcome.ok, ⟨[], [], [make_accept, make_finish], [], true, DState.done⟩) ∧
    DnsTap.process_stream decId
      (control_frame CONTROL_READY ++ control_frame CONTROL_START ++
        control_frame CONTROL_STOP) [false, true] =
      (TapOutcome.ok, ⟨[], [], [make_accept], [], true, DState.done⟩) := by
  refine ⟨?_, by decide, by decide⟩
  intro st h
  obtain ⟨inp, fs, w, sk, bi, s⟩ := st
  simp only at h
  subst h
  cases bi
  · rfl
  · cases fs with
    | nil => rfl
    | cons b fs' => cases b <;> rfl

/-- Witness for C3: the STOP handler at a concrete running state. -/
theorem stop_termination_witness :
    (process_control_frame
        (⟨[], [], [], [], true, DState.running⟩ : DnsTap (List Nat))
        CONTROL_STOP).toOption.map (fun p => (p.1, p.2.state)) =
      some (true, DState.done) :=
  stop_termination.1 ⟨[], [], [], [], true, DState.running⟩ rfl

/-- C6: handshake ordering errors.  A data frame (non-zero length prefix)
arriving before any START fails with a protocol error, and a STOP arriving
before any START fails with a protocol error, whatever follows on the
stream. -/
theorem handshake_ordering_errors (α : Type) (dec : List Nat → Option α)
    (D rest : List Nat) (fs : List Bool)
    (h0 : 0 < D.length) (hlt : D.length < 4294967296) :
    (DnsTap.process_stream dec (data_frame D ++ rest) fs).1 =
      TapOutcome.protocolError ∧
    (DnsTap.process_stream dec (control_frame CONTROL_STOP ++ rest) fs).1 =
      TapOutcome.protocolError := by
  constructor
  · unfold DnsTap.process_stream
    have hbe := fromBE4_toBE4 D.length hlt
    simp [DnsTap.run, data_frame, toBE4, get_value, hbe, Nat.pos_iff_ne_zero.mp h0]
  · unfold DnsTap.process_stream
    have hcf : control_frame CONTROL_STOP ++ rest =
        0::0::0::0::0::0::0::4::0::0::0::3::rest := by
      simp [control_frame, toBE4, CONTROL_STOP]
    rw [hcf]
    rw [run_control dec _ 3 rest fs [] [] false DState.awaitStart (by decide)]
    rfl

/-- Witness for C6: a concrete 3-byte data frame before START. -/
theorem handshake_ordering_errors_witness :
    (DnsTap.process_stream decId (data_frame [1, 2, 3] ++ []) []).1 =
      TapOutcome.protocolError :=
  (handshake_ordering_errors (List Nat) decId [1, 2, 3] [] [] (by decide)
    (by decide)).1

/-- C7: end-of-stream handling.  End-of-stream exactly at a frame boundary
(while a new length prefix is expected) makes the loop return normally,
for any decoder state and pending outputs; end-of-stream in the middle of
a length field, of a control body, or of a data payload (here: a data
frame declaring length 100 with only 40 bytes supplied) fails with a
protocol error. -/
theorem end_of_stream_handling (α : Type) (dec : List Nat → Option α)
    (fuel : Nat) (st : DnsTap α) (h : st.input = []) :
    (DnsTap.run dec (fuel + 1) st).1 = TapOutcome.ok ∧
    (DnsTap.process_stream decId (control_frame CONTROL_START ++ [0, 0]) []).1 =
      TapOutcome.protocolError ∧
    (DnsTap.process_stream decId
      (control_frame CONTROL_START ++ toBE4 0 ++ toBE4 8 ++ [0, 0]) []).1 =
      TapOutcome.protocolError ∧
    (DnsTap.process_stream decId
      (control_frame CONTROL_START ++ toBE4 100 ++ List.replicate 40 7) []).1 =
      TapOutcome.protocolError := by
  refine ⟨?_, by decide, by decide, by decide⟩
  obtain ⟨inp, fs, w, sk, bi, s⟩ := st
  simp only at h
  subst h
  rw [run_empty]

/-- Witness for C7: the empty stream from the initial state. -/
theorem end_of_stream_handling_witness :
    (DnsTap.run decId 1
        (⟨[], [], [], [], false, DState.awaitStart⟩ : DnsTap (List Nat))).1 =
      TapOutcome.ok :=
  (end_of_stream_handling (List Nat) decId 0
    ⟨[], [], [], [], false, DState.awaitStart⟩ rfl).1

/-- C10: a successful control-frame dispatch returns `false` (stop the
read loop) exactly when the frame type is FINISH; consequently an incoming
FINISH terminates processing normally instead of raising a protocol error,
shown on the stream `START, FINISH, data(...)` whose trailing data frame
is never read. -/
theorem finish_terminates :
    (∀ (st : DnsTap (List Nat)) (t : Nat) (cont : Bool) (st' : DnsTap (List Nat)),
       process_control_frame st t = Except.ok (cont, st') →
       (cont = false ↔ t = CONTROL_FINISH)) ∧
    DnsTap.process_stream decId
      (control_frame CONTROL_START ++ control_frame CONTROL_FINISH ++
        data_frame [9]) [] =
      (TapOutcome.ok, ⟨data_frame [9], [], [], [], false, DState.running⟩) := by
  refine ⟨?_, by decide⟩
  intro st t cont st' h
  simp only [process_control_frame] at h
  split_ifs at h
  all_goals try split at h
  all_goals cases h
  all_goals simp_all [CONTROL_READY, CONTROL_START, CONTROL_STOP, CONTROL_FINISH]

/-- Witness for C10: the FINISH code at a concrete state. -/
theorem finish_terminates_witness :
    (false = false ↔ CONTROL_FINISH = CONTROL_FINISH) :=
  finish_terminates.1 ⟨[], [], [], [], false, DState.awaitStart⟩ CONTROL_FINISH
    false ⟨[], [], [], [], false, DState.awaitStart⟩ rfl

/-- C8: key derivation contract.  `generate_key` always produces exactly
16 bytes, is deterministic in (passphrase, salt), the salt-less
constructor uses the fixed default salt `"cdnscdnscdnscdns"`, and that
default differs from ipcipher's `"ipcipheripcipher"`. -/
theorem generate_key_contract (kdf : String → String → List Nat)
    (p s : String) :
    (generate_key kdf p s).length = 16 ∧
    (∀ p' s', p = p' → s = s' → generate_key kdf p s = generate_key kdf p' s') ∧
    mkPseudoAnonymiseDefault kdf p = mkPseudoAnonymise kdf p "cdnscdnscdnscdns" ∧
    DEFAULT_SALT ≠ IPCIPHER_SALT := by
  refine ⟨?_, ?_, rfl, by decide⟩
  · simp [generate_key]
  · intro p' s' hp hs
    rw [hp, hs]

/-- Witness for C8: the trivial KDF core on concrete strings. -/
theorem generate_key_contract_witness :
    (generate_key kdfZero "a" "b").length = 16 :=
  (generate_key_contract kdfZero "a" "b").1

/-- C9: determinism and purity.  The transforms are pure functions of the
key and the input: repeated calls agree definitionally, and two façade
instances holding equal keys agree on every address and every OPT RDATA
buffer. -/
theorem anonymise_deterministic (bc : BlockCipher) (pa pa' : PseudoAnonymise)
    (a b : List Nat) (h : pa.aes_key = pa'.aes_key) :
    PseudoAnonymise.address bc pa a = PseudoAnonymise.address bc pa a ∧
    PseudoAnonymise.opt_rdata bc pa b = PseudoAnonymise.opt_rdata bc pa b ∧
    PseudoAnonymise.address bc pa a = PseudoAnonymise.address bc pa' a ∧
    PseudoAnonymise.opt_rdata bc pa b = PseudoAnonymise.opt_rdata bc pa' b := by
  obtain ⟨k⟩ := pa
  obtain ⟨k'⟩ := pa'
  have hk : k = k' := h
  subst hk
  exact ⟨rfl, rfl, rfl, rfl⟩

/-- Witness for C9: two instances with the same concrete key. -/
theorem anonymise_deterministic_witness :
    PseudoAnonymise.address bcId ⟨[]⟩ [] = PseudoAnonymise.address bcId ⟨[]⟩ [] :=
  (anonymise_deterministic bcId ⟨[]⟩ ⟨[]⟩ [] [] rfl).1

/-- A recognised client-subnet family width is 4 or 16. -/
theorem familyWidth_cases (f w : Nat) (h : familyWidth f = some w) :
    w = 4 ∨ w = 16 := by
  unfold familyWidth at h
  split_ifs at h <;> cases h
  · exact Or.inl rfl
  · exact Or.inr rfl

/-- A successful client-subnet value rewrite preserves the value length,
provided the address cipher preserves 4- and 16-byte lengths. -/
theorem rewrite_ecs_length (anon : List Nat → List Nat)
    (hanon : ∀ x : List Nat, x.length = 4 ∨ x.length = 16 →
      (anon x).length = x.length)
    (val val' : List Nat) (h : rewrite_ecs anon val = some val') :
    val'.length = val.length := by
  rcases val with _ | ⟨f0, _ | ⟨f1, _ | ⟨sp, _ | ⟨sc, addr⟩⟩⟩⟩ <;>
    simp only [rewrite_ecs] at h
  · cases h
  · cases h
  · cases h
  · cases h
  · cases hfw : familyWidth (f0 * 256 + f1) with
    | none =>
      simp only [hfw] at h
      cases h
      rfl
    | some w =>
      simp only [hfw] at h
      split_ifs at h with hg
      · obtain ⟨hg1, hg2⟩ := hg
        cases h
        have hw := familyWidth_cases (f0 * 256 + f1) w hfw
        have hfull : (addr.take ((sp + 7) / 8) ++
            List.replicate (w - (sp + 7) / 8) 0).length = w := by
          simp [List.length_take]
          omega
        have hal := hanon _ (by rw [hfull]; exact hw)
        rw [hfull] at hal
        simp only [List.length_cons, List.length_append, List.length_take,
          List.length_drop, hal]
        omega

/-- A successful option walk preserves the total byte length. -/
theorem opt_walk_length (anon : List Nat → List Nat)
    (hanon : ∀ x : List Nat, x.length = 4 ∨ x.length = 16 →
      (anon x).length = x.length) :
    ∀ (fuel : Nat) (b out : List Nat),
      opt_walk anon fuel b = some out → out.length = b.length := by
  intro fuel
  induction fuel with
  | zero =>
    intro b out h
    cases b with
    | nil =>
      simp only [opt_walk] at h
      cases h
      rfl
    | cons x xs =>
      simp only [opt_walk] at h
      cases h
  | succ fuel ih =>
    intro b out h
    rcases b with _ | ⟨c0, _ | ⟨c1, _ | ⟨l0, _ | ⟨l1, rest⟩⟩⟩⟩
    · simp only [opt_walk] at h
      cases h
      rfl
    · simp only [opt_walk] at h
      cases h
    · simp only [opt_walk] at h
      cases h
    · simp only [opt_walk] at h
      cases h
    · simp only [opt_walk] at h
      by_cases hle : l0 * 256 + l1 ≤ rest.length
      · rw [if_pos hle] at h
        by_cases hcode : c0 * 256 + c1 = CLIENT_SUBNET
        · rw [if_pos hcode] at h
          split at h
          · cases h
          · rename_i val heq1
            split at h
            · cases h
            · rename_i tail heq2
              cases h
              have hval : val.length = l0 * 256 + l1 := by
                have hrl := rewrite_ecs_length anon hanon _ _ heq1
                rw [hrl, List.length_take]
                omega
              have htail := ih _ _ heq2
              rw [List.length_drop] at htail
              simp only [List.length_cons, List.length_append, hval, htail]
              omega
        · rw [if_neg hcode] at h
          split at h
          · cases h
          · rename_i val heq1
            split at h
            · cases h
            · rename_i tail heq2
              cases h
              cases heq1
              have htail := ih _ _ heq2
              rw [List.length_drop] at htail
              simp only [List.length_cons, List.length_append, List.length_take, htail]
              omega
      · rw [if_neg hle] at h
        cases h

/-- A successful option walk only changes bytes inside client-subnet
address fields. -/
theorem opt_walk_outside (anon : List Nat → List Nat)
    (hanon : ∀ x : List Nat, x.length = 4 ∨ x.length = 16 →
      (anon x).length = x.length) :
    ∀ (fuel : Nat) (b out : List Nat),
      opt_walk anon fuel b = some out → EcsOutsideEq b out := by
  intro fuel
  induction fuel with
  | zero =>
    intro b out h
    cases b with
    | nil =>
      simp only [opt_walk] at h
      cases h
      exact EcsOutsideEq.nil
    | cons x xs =>
      simp only [opt_walk] at h
      cases h
  | succ fuel ih =>
    intro b out h
    rcases b with _ | ⟨c0, _ | ⟨c1, _ | ⟨l0, _ | ⟨l1, rest⟩⟩⟩⟩
    · simp only [opt_walk] at h
      cases h
      exact EcsOutsideEq.nil
    · simp only [opt_walk] at h
      cases h
    · simp only [opt_walk] at h
      cases h
    · simp only [opt_walk] at h
      cases h
    · simp only [opt_walk] at h
      by_cases hle : l0 * 256 + l1 ≤ rest.length
      · rw [if_pos hle] at h
        have hsplit := (List.take_append_drop (l0 * 256 + l1) rest).symm
        have hlt : (rest.take (l0 * 256 + l1)).length = l0 * 256 + l1 := by
          rw [List.length_take]
          omega
        by_cases hcode : c0 * 256 + c1 = CLIENT_SUBNET
        · rw [if_pos hcode] at h
          split at h
          · cases h
          · rename_i val heq1
            split at h
            · cases h
            · rename_i tail heq2
              cases h
              have htail := ih _ _ heq2
              rcases hts : rest.take (l0 * 256 + l1) with
                  _ | ⟨f0, _ | ⟨f1, _ | ⟨sp, _ | ⟨sc, addr0⟩⟩⟩⟩ <;>
                rw [hts] at heq1 <;> simp only [rewrite_ecs] at heq1
              · cases heq1
              · cases heq1
              · cases heq1
              · cases heq1
              · rw [hts] at hsplit hlt
                simp only [List.length_cons] at hlt
                nth_rewrite 1 [hsplit]
                simp only [List.cons_append]
                cases hfw : familyWidth (f0 * 256 + f1) with
                | none =>
                  simp only [hfw] at heq1
                  cases heq1
                  simp only [List.cons_append]
                  exact EcsOutsideEq.ecs c0 c1 l0 l1 f0 f1 sp sc addr0 addr0 _ _
                    hcode (by omega) rfl rfl htail
                | some w =>
                  simp only [hfw] at heq1
                  split_ifs at heq1 with hg
                  obtain ⟨hg1, hg2⟩ := hg
                  cases heq1
                  simp only [List.cons_append]
                  have hw := familyWidth_cases (f0 * 256 + f1) w hfw
                  have hfull : (addr0.take ((sp + 7) / 8) ++
                      List.replicate (w - (sp + 7) / 8) 0).length = w := by
                    simp [List.length_take]
                    omega
                  have hal := hanon _ (by rw [hfull]; exact hw)
                  rw [hfull] at hal
                  have htk : ((anon (addr0.take ((sp + 7) / 8) ++
                      List.replicate (w - (sp + 7) / 8) 0)).take ((sp + 7) / 8)).length =
                      (sp + 7) / 8 := by
                    rw [List.length_take, hal]
                    omega
                  refine EcsOutsideEq.ecs c0 c1 l0 l1 f0 f1 sp sc addr0 _ _ _
                    hcode (by omega) ?_ ?_ htail
                  · rw [List.length_append, htk, List.length_drop]
                    omega
                  · rw [List.drop_left' htk]
        · rw [if_neg hcode] at h
          split at h
          · cases h
          · rename_i val heq1
            split at h
            · cases h
            · rename_i tail heq2
              cases h
              cases heq1
              have htail := ih _ _ heq2
              nth_rewrite 1 [hsplit]
              exact EcsOutsideEq.other c0 c1 l0 l1 _ _ _ hcode hlt htail
      · rw [if_neg hle] at h
        cases h

/-- On a well-formed option list without any client-subnet option, the
walk returns the input unchanged. -/
theorem opt_codes_no_ecs (anon : List Nat → List Nat) :
    ∀ (fuel : Nat) (b cs : List Nat),
      opt_codes fuel b = some cs → CLIENT_SUBNET ∉ cs →
      opt_walk anon fuel b = some b := by
  intro fuel
  induction fuel with
  | zero =>
    intro b cs h hn
    cases b with
    | nil => simp only [opt_walk]
    | cons x xs =>
      simp only [opt_codes] at h
      cases h
  | succ fuel ih =>
    intro b cs h hn
    rcases b with _ | ⟨c0, _ | ⟨c1, _ | ⟨l0, _ | ⟨l1, rest⟩⟩⟩⟩
    · simp only [opt_walk]
    · simp only [opt_codes] at h
      cases h
    · simp only [opt_codes] at h
      cases h
    · simp only [opt_codes] at h
      cases h
    · simp only [opt_codes] at h
      by_cases hle : l0 * 256 + l1 ≤ rest.length
      · rw [if_pos hle] at h
        split at h
        · cases h
        · rename_i cs' heq
          cases h
          have hcode : c0 * 256 + c1 ≠ CLIENT_SUBNET := by
            intro hc
            exact hn (by rw [hc]; exact List.mem_cons_self _ _)
          have htail := ih _ _ heq (fun hm => hn (List.mem_cons_of_mem _ hm))
          simp only [opt_walk]
          rw [if_pos hle, if_neg hcode]
          simp only [htail, List.take_append_drop]
      · rw [if_neg hle] at h
        cases h

/-- The address transform preserves 4- and 16-byte lengths whenever the
block cipher maps 16-byte blocks to 16-byte blocks. -/
theorem address_length (bc : BlockCipher) (pa : PseudoAnonymise)
    (hbc : ∀ x : List Nat, x.length = 16 → (bc pa.aes_key x).length = 16) :
    ∀ x : List Nat, x.length = 4 ∨ x.length = 16 →
      (PseudoAnonymise.address bc pa x).length = x.length := by
  intro x hx
  rcases hx with h4 | h16
  · rw [PseudoAnonymise.address, if_pos h4]
    have h16' : (x ++ x ++ x ++ x).length = 16 := by
      simp only [List.length_append, h4]
    rw [List.length_take, hbc _ h16', h4]
    omega
  · rw [PseudoAnonymise.address, if_neg (by omega), hbc _ h16, h16]

/-- C4: malformed-option robustness.  `opt_rdata` never raises (it is a
total function), and it returns its input unmodified whenever the option
walk rejects the buffer; in particular for every buffer whose first option
declares a length exceeding the remaining bytes, and for every
client-subnet option whose address field is shorter than its declared
source prefix length implies. -/
theorem opt_rdata_malformed_unchanged :
    (∀ (bc : BlockCipher) (pa : PseudoAnonymise) (b : List Nat),
       opt_walk (PseudoAnonymise.address bc pa) (b.length + 1) b = none →
       PseudoAnonymise.opt_rdata bc pa b = b) ∧
    (∀ (bc : BlockCipher) (pa : PseudoAnonymise) (c0 c1 l0 l1 : Nat)
       (rest : List Nat), rest.length < l0 * 256 + l1 →
       PseudoAnonymise.opt_rdata bc pa (c0 :: c1 :: l0 :: l1 :: rest) =
         c0 :: c1 :: l0 :: l1 :: rest) ∧
    (∀ (bc : BlockCipher) (pa : PseudoAnonymise)
       (l0 l1 f0 f1 srcpl scopepl w : Nat) (addr : List Nat),
       familyWidth (f0 * 256 + f1) = some w →
       addr.length + 4 = l0 * 256 + l1 →
       addr.length < (srcpl + 7) / 8 →
       PseudoAnonymise.opt_rdata bc pa
           (0 :: 8 :: l0 :: l1 :: f0 :: f1 :: srcpl :: scopepl :: addr) =
         0 :: 8 :: l0 :: l1 :: f0 :: f1 :: srcpl :: scopepl :: addr) := by
  refine ⟨?_, ?_, ?_⟩
  · intro bc pa b h
    simp [PseudoAnonymise.opt_rdata, h]
  · intro bc pa c0 c1 l0 l1 rest h
    have hw : opt_walk (PseudoAnonymise.address bc pa)
        ((c0 :: c1 :: l0 :: l1 :: rest).length + 1)
        (c0 :: c1 :: l0 :: l1 :: rest) = none := by
      simp only [opt_walk]
      rw [if_neg (by omega)]
    simp only [List.length_cons] at hw
    simp [PseudoAnonymise.opt_rdata, hw]
  · intro bc pa l0 l1 f0 f1 srcpl scopepl w addr hfw hlen hshort
    have hw : opt_walk (PseudoAnonymise.address bc pa)
        ((0 :: 8 :: l0 :: l1 :: f0 :: f1 :: srcpl :: scopepl :: addr).length + 1)
        (0 :: 8 :: l0 :: l1 :: f0 :: f1 :: srcpl :: scopepl :: addr) = none := by
      simp only [opt_walk]
      rw [if_pos (by simp only [List.length_cons]; omega)]
      rw [if_pos (by decide)]
      have htake : (f0 :: f1 :: srcpl :: scopepl :: addr).take (l0 * 256 + l1) =
          f0 :: f1 :: srcpl :: scopepl :: addr := by
        apply List.take_of_length_le
        simp only [List.length_cons]
        omega
      rw [htake]
      simp only [rewrite_ecs, hfw]
      rw [if_neg (by omega)]
    simp only [List.length_cons] at hw
    simp [PseudoAnonymise.opt_rdata, hw]

/-- C5: rewrite frame property.  For every key and OPT RDATA buffer the
output of `opt_rdata` has exactly the input's length; the output is the
input itself or agrees with it on every byte outside the address field of
a recognised client-subnet option (option codes and lengths included);
and a well-formed buffer containing no client-subnet option is returned
unchanged. -/
theorem opt_rdata_frame (bc : BlockCipher) (pa : PseudoAnonymise) (b : List Nat)
    (hbc : ∀ x : List Nat, x.length = 16 → (bc pa.aes_key x).length = 16) :
    (PseudoAnonymise.opt_rdata bc pa b).length = b.length ∧
    (PseudoAnonymise.opt_rdata bc pa b = b ∨
      EcsOutsideEq b (PseudoAnonymise.opt_rdata bc pa b)) ∧
    (∀ cs : List Nat, opt_codes (b.length + 1) b = some cs →
      CLIENT_SUBNET ∉ cs → PseudoAnonymise.opt_rdata bc pa b = b) := by
  have hanon := address_length bc pa hbc
  unfold PseudoAnonymise.opt_rdata
  cases hw : opt_walk (PseudoAnonymise.address bc pa) (b.length + 1) b with
  | none =>
    exact ⟨rfl, Or.inl rfl, fun cs hc hn => rfl⟩
  | some out =>
    refine ⟨opt_walk_length _ hanon _ _ _ hw,
      Or.inr (opt_walk_outside _ hanon _ _ _ hw), ?_⟩
    intro cs hc hn
    have hid := opt_codes_no_ecs (PseudoAnonymise.address bc pa) _ _ _ hc hn
    rw [hw] at hid
    cases hid
    rfl


/-- Witness for C4: a concrete buffer whose single option declares 5 value
bytes but carries only 2. -/
theorem opt_rdata_malformed_unchanged_witness :
    PseudoAnonymise.opt_rdata bcId ⟨[]⟩ [0, 1, 0, 5, 1, 2] = [0, 1, 0, 5, 1, 2] :=
  opt_rdata_malformed_unchanged.2.1 bcId ⟨[]⟩ 0 1 0 5 [1, 2] (by decide)

/-- Witness for C5: length preservation on a concrete option buffer under
the identity cipher. -/
theorem opt_rdata_frame_witness :
    (PseudoAnonymise.opt_rdata bcId ⟨[]⟩ [0, 1, 0, 0]).length =
      ([0, 1, 0, 0] : List Nat).length :=
  (opt_rdata_frame bcId ⟨[]⟩ [0, 1, 0, 0] (fun _ h => h)).1
